import Mathlib

/-!
Shallow embedding of the terracost cost-estimation core.

Sources embedded here:
* `src/unnamed/part_000` — the `cost` package: `State`, `Component`, `NewState`,
  `State.Cost`, `State.addComponent`, `HoursPerMonth`, `ErrProductNotFound`,
  `ErrPriceNotFound`; and the `main` package's `estimateDisplay`.
* `src/azurerm/terraform/virtual_network_gateway.go` — the virtual network
  gateway component generator.

Modelling conventions:
* `shopspring/decimal` decimals are modelled as exact rationals (`ℚ`).
* Go maps are modelled as association lists with last-write-wins update
  (`mapSet`) and first-match lookup (`mapLookup`); a Go `nil` map is
  `Option.none`, so that the runtime panic on assignment to an entry of a
  nil map is observable in the model.
* Go panics (nil-map assignment, nil-interface dereference) are modelled by
  the `Except String` error channel of `NewState`; the Go function's own
  `(*State, error)` return value is the `State × Option GoErr` payload.
* `context.Context` carries no data the embedded code reads; cancellation
  surfaces exactly as the backend returning the `canceled` error, which is
  how the embedded loop observes it.
-/

namespace Terracost

/-- `shopspring/decimal` values, modelled as exact rationals. -/
abbrev Dec := ℚ

/-- Go `error` values reaching the embedded code: the two sentinel errors of
the `cost` package, `context.Canceled`, and arbitrary backend errors. -/
inductive GoErr where
  | productNotFound
  | priceNotFound
  | canceled
  | backendErr (msg : String)
deriving DecidableEq, Repr

/-- `var ErrProductNotFound = fmt.Errorf("product not found")` (part_000:247). -/
def ErrProductNotFound : GoErr := .productNotFound

/-- `var ErrPriceNotFound = fmt.Errorf("price not found")` (part_000:248). -/
def ErrPriceNotFound : GoErr := .priceNotFound

/-- `const HoursPerMonth = 730` (part_000:243), i.e. 365×24/12. -/
def HoursPerMonth : Dec := 730

/-- An exact-match key/value attribute constraint (`product.AttributeFilter`
and `price.AttributeFilter`, as used in virtual_network_gateway.go). -/
structure AttributeFilter where
  key : String
  value : Option String
deriving DecidableEq, Repr

/-- `product.Filter`: scalar fields plus attribute constraints. -/
structure ProductFilter where
  provider : Option String := none
  service : Option String := none
  family : Option String := none
  location : Option String := none
  attributeFilters : List AttributeFilter := []
deriving DecidableEq, Repr

/-- `price.Filter`: unit plus attribute constraints. -/
structure PriceFilter where
  unit : Option String := none
  attributeFilters : List AttributeFilter := []
deriving DecidableEq, Repr

/-- A catalog `Product`; the builder only reads `id` of the first match. -/
structure Product where
  id : Nat := 0
  provider : String := ""
  service : String := ""
  family : String := ""
  location : String := ""
  attributes : List (String × String) := []
deriving DecidableEq, Repr

/-- A catalog `Price`; the builder only reads `value` of the first match. -/
structure Price where
  value : Dec := 0
  unit : String := ""
  attributes : List (String × String) := []
deriving DecidableEq, Repr

/-- `query.Component`: one billable dimension of a resource before pricing. -/
structure QueryComponent where
  name : String := ""
  hourlyQuantity : Dec := 0
  monthlyQuantity : Dec := 0
  unit : String := ""
  details : List String := []
  usage : Bool := false
  productFilter : Option ProductFilter := none
  priceFilter : Option PriceFilter := none
deriving DecidableEq, Repr

/-- `query.Resource`: an address with its ordered query components. -/
structure QueryResource where
  address : String := ""
  components : List QueryComponent := []
deriving DecidableEq, Repr

/-- `cost.Component` (result): the resolved, priced form of a query
component; Go zero values are the field defaults. -/
structure Component where
  quantity : Dec := 0
  unit : String := ""
  rate : Dec := 0
  details : List String := []
  error : Option GoErr := none
deriving DecidableEq, Repr

/-- `cost.Resource` (result). `components = none` models a Go `nil` map,
which is what `Resource{Skipped: true}` carries. -/
structure Resource where
  components : Option (List (String × Component)) := none
  skipped : Bool := false
deriving DecidableEq, Repr

/-- `cost.State`: the address → Resource map. -/
structure State where
  resources : List (String × Resource) := []
deriving DecidableEq, Repr

/-- The `cost.Backend` interface: `productFilter` models
`backend.Product().Filter(ctx, ·)` and `priceFilter` models
`backend.Price().Filter(ctx, ·, ·)`. A Go `(slice, error)` return is an
`Except`. -/
structure Backend where
  productFilter : Option ProductFilter → Except GoErr (List Product)
  priceFilter : Nat → Option PriceFilter → Except GoErr (List Price)

/-- Go map lookup on the association-list model. -/
def mapLookup {α : Type} : List (String × α) → String → Option α
  | [], _ => none
  | (k', v) :: rest, k => if k' = k then some v else mapLookup rest k

/-- Go map assignment on the association-list model: replace the binding if
the key is present, append it otherwise. -/
def mapSet {α : Type} : List (String × α) → String → α → List (String × α)
  | [], k, v => [(k, v)]
  | (k', v') :: rest, k, v =>
      if k' = k then (k, v) :: rest else (k', v') :: mapSet rest k v

/-- `State.addComponent` (part_000:313-319). Creates the `Resource` with a
fresh components map if the address is absent, then assigns into the
resource's components map. Returns `none` when the resource exists but its
components map is `nil` (a skipped resource): in Go this assignment panics
with "assignment to entry in nil map". -/
def State.addComponent (s : State) (resAddress compLabel : String)
    (component : Component) : Option State :=
  match mapLookup s.resources resAddress with
  | none =>
      some ⟨mapSet s.resources resAddress
        ⟨some (mapSet [] compLabel component), false⟩⟩
  | some r =>
      match r.components with
      | none => none
      | some m =>
          some ⟨mapSet s.resources resAddress
            { r with components := some (mapSet m compLabel component) }⟩

/-- The per-component body of the `NewState` loop (part_000:262-295):
product lookup, price lookup on the first product, and the quantity/rate
normalization of §4.2. -/
def processComponent (backend : Backend) (comp : QueryComponent) : Component :=
  match backend.productFilter comp.productFilter with
  | .error err => { error := some err }
  | .ok prods =>
      match prods with
      | [] => { error := some ErrProductNotFound }
      | prod0 :: _ =>
          match backend.priceFilter prod0.id comp.priceFilter with
          | .error err => { error := some err }
          | .ok prices =>
              match prices with
              | [] => { error := some ErrPriceNotFound }
              | price0 :: _ =>
                  let quantity := comp.monthlyQuantity
                  let rate := price0.value
                  if quantity = 0 then
                    { quantity := comp.hourlyQuantity, unit := comp.unit,
                      rate := rate * HoursPerMonth, details := comp.details }
                  else
                    { quantity := quantity, unit := comp.unit,
                      rate := rate, details := comp.details }

/-- The inner `for _, comp := range res.Components` loop of `NewState`.
A `none` backend is a nil interface: calling `backend.Product()` panics.
A failed `addComponent` is the nil-map assignment panic. -/
def processComponents (backend : Option Backend) (address : String)
    (comps : List QueryComponent) (state : State) : Except String State :=
  match comps with
  | [] => .ok state
  | comp :: rest =>
      match backend with
      | none => .error "invalid memory address or nil pointer dereference"
      | some b =>
          match state.addComponent address comp.name (processComponent b comp) with
          | none => .error "assignment to entry in nil map"
          | some s => processComponents backend address rest s

/-- The outer `for _, res := range queries` loop of `NewState`
(part_000:255-297): a resource with no components is recorded as
`Resource{Skipped: true}` (components map nil); otherwise each component is
processed and recorded. -/
def processResources (backend : Option Backend) (state : State) :
    List QueryResource → Except String State
  | [] => .ok state
  | res :: rest =>
      let state1 :=
        if res.components.length = 0 then
          State.mk (mapSet state.resources res.address ⟨none, true⟩)
        else state
      match processComponents backend res.address res.components state1 with
      | .error e => .error e
      | .ok s => processResources backend s rest

/-- `NewState` (part_000:252-300). The Go function's only `return` is
`(state, nil)`; the `Except` error channel models the two possible runtime
panics (nil backend, nil-map assignment). -/
def NewState (backend : Option Backend) (queries : List QueryResource) :
    Except String (State × Option GoErr) :=
  match processResources backend ⟨[]⟩ queries with
  | .error e => .error e
  | .ok s => .ok (s, none)

/-- Modelled from the spec: `Component.Cost` is not under `src/`.
"erroring components contribute 0"; a resolved component contributes
quantity × rate (§8). -/
def Component.Cost (c : Component) : Dec :=
  if c.error.isSome then 0 else c.quantity * c.rate

/-- Modelled from the spec: `Resource.Cost` is not under `src/`.
"Σ over all non-error components (quantity × rate)" (§8); a skipped
resource (nil components map) contributes 0. -/
def Resource.Cost (r : Resource) : Dec :=
  ((r.components.getD []).map (fun kv => kv.2.Cost)).sum

/-- `State.Cost` (part_000:303-309): running total of `Resource.Cost` over
all resources. -/
def State.Cost (s : State) : Dec :=
  s.resources.foldl (fun total kv => total + kv.2.Cost) 0

/-- Modelled from the spec: `cost.Plan` is not under `src/`. "Plan: pairs a
prior State and a planned State" (§3). -/
structure Plan where
  prior : State
  planned : State
deriving Repr

/-- Modelled from the spec: the per-address diff type exposed by
`Plan.ResourceDifferences()` is not under `src/`; `estimateDisplay`
(part_000:198-213) reads its `Address`, `PriorCost()` and `PlannedCost()`. -/
structure ResourceDiff where
  address : String
  priorComponents : List (String × Component)
  plannedComponents : List (String × Component)
deriving DecidableEq, Repr

/-- Modelled from the spec: the cost of one side of a diff is not under
`src/`. "Each is computed by summing quantity × rate over all successfully
resolved components ... If any component in a resource is in error, that
side's cost computation fails with the same recorded error" (§4.5). -/
def componentsCost : List (String × Component) → Except GoErr Dec
  | [] => .ok 0
  | (_, c) :: rest =>
      match c.error with
      | some e => .error e
      | none =>
          match componentsCost rest with
          | .error e => .error e
          | .ok q => .ok (c.quantity * c.rate + q)

/-- Modelled from the spec: `PriorCost()` of a resource diff (§4.5). -/
def ResourceDiff.PriorCost (d : ResourceDiff) : Except GoErr Dec :=
  componentsCost d.priorComponents

/-- Modelled from the spec: `PlannedCost()` of a resource diff (§4.5). -/
def ResourceDiff.PlannedCost (d : ResourceDiff) : Except GoErr Dec :=
  componentsCost d.plannedComponents

/-- Modelled from the spec: `Plan.ResourceDifferences()` is not under
`src/`. "yields, for every address present in either State, a diff exposing
`PriorCost()` and `PlannedCost()`" (§4.5); a missing or skipped side has no
components. -/
def Plan.ResourceDifferences (p : Plan) : List ResourceDiff :=
  let priorAddrs := p.prior.resources.map Prod.fst
  let plannedOnly :=
    (p.planned.resources.map Prod.fst).filter (fun a => ¬ a ∈ priorAddrs)
  (priorAddrs ++ plannedOnly).map fun a =>
    { address := a
      priorComponents :=
        ((mapLookup p.prior.resources a).bind Resource.components).getD []
      plannedComponents :=
        ((mapLookup p.planned.resources a).bind Resource.components).getD [] }

/-- One line printed by `estimateDisplay` (part_000:198-213): the format
string and arguments of the corresponding `fmt.Printf` call. -/
inductive ReportLine where
  | priorCostErr (address : String) (err : GoErr)
  | plannedCostErr (address : String) (err : GoErr)
  | costs (address : String) (priorCost plannedCost : Dec)
deriving DecidableEq, Repr

/-- The body of the `estimateDisplay` loop (part_000:199-212): on a
`PriorCost` error print it and continue; else on a `PlannedCost` error
print it and continue; else print both costs. -/
def displayLine (res : ResourceDiff) : ReportLine :=
  match res.PriorCost with
  | .error err => .priorCostErr res.address err
  | .ok priorCost =>
      match res.PlannedCost with
      | .error err => .plannedCostErr res.address err
      | .ok plannedCost => .costs res.address priorCost plannedCost

/-- `estimateDisplay` (part_000:198-213): one printed line per resource
difference. -/
def estimateDisplay (resourceDiff : Plan) : List ReportLine :=
  resourceDiff.ResourceDifferences.map displayLine

/-- The azurerm terraform `Provider`, reduced to the field the gateway
generator reads (`provider.key`). -/
structure Provider where
  key : String
deriving DecidableEq, Repr

/-- `virtualNetworkGatewayValues` (virtual_network_gateway.go:29-36);
`Usage.MonthlyDataTransferGB` (a float64) is modelled as an exact rational. -/
structure VirtualNetworkGatewayValues where
  sku : String := ""
  location : String := ""
  monthlyDataTransferGB : Dec := 0
deriving DecidableEq, Repr

/-- `VirtualNetworkGateway` (virtual_network_gateway.go:16-25). -/
structure VirtualNetworkGateway where
  provider : Provider
  location : String
  sku : String
  meterName : String
  monthlyDataTransferGB : Dec
deriving DecidableEq, Repr

/-- `newVirtualNetworkGateway` (virtual_network_gateway.go:58-75).
`getLocationName` is a package function not under `src/`, so it is passed
as an explicit parameter. -/
def newVirtualNetworkGateway (getLocationName : String → String)
    (p : Provider) (vals : VirtualNetworkGatewayValues) :
    VirtualNetworkGateway :=
  { provider := p
    location := getLocationName vals.location
    sku := vals.sku
    meterName := if vals.sku = "Basic" then "Basic Gateway" else vals.sku
    monthlyDataTransferGB := vals.monthlyDataTransferGB }

/-- `virtualNetworkGatewayComponent` (virtual_network_gateway.go:88-108):
the base gateway charge, billed hourly with quantity 1. -/
def VirtualNetworkGateway.virtualNetworkGatewayComponent
    (_inst : VirtualNetworkGateway)
    (key location sku meterName : String) : QueryComponent :=
  { name := "VPN gateway (" ++ sku ++ ")"
    hourlyQuantity := 1
    productFilter := some
      { provider := some key
        service := some "VPN Gateway"
        family := some "Networking"
        location := some location
        attributeFilters := [⟨"meter_name", some meterName⟩] }
    priceFilter := some
      { unit := some "1 Hour"
        attributeFilters := [⟨"type", some "Consumption"⟩] } }

/-- `virtualNetworkGatewayP2SComponent` (virtual_network_gateway.go:110-131):
the P2S tunnels charge, billed hourly with quantity 1. -/
def VirtualNetworkGateway.virtualNetworkGatewayP2SComponent
    (_inst : VirtualNetworkGateway)
    (key location sku : String) : QueryComponent :=
  { name := "VPN gateway P2S tunnels (over 128)"
    hourlyQuantity := 1
    productFilter := some
      { provider := some key
        service := some "VPN Gateway"
        family := some "Networking"
        location := some location
        attributeFilters :=
          [⟨"sku_name", some sku⟩, ⟨"meter_name", some "P2S Connection"⟩] }
    priceFilter := some
      { unit := some "1 Hour"
        attributeFilters := [⟨"type", some "Consumption"⟩] } }

/-- `virtualNetworkGatewayDataTransfersComponent`
(virtual_network_gateway.go:133-155): the metered data-transfer charge,
flagged `usage:true`, monthly quantity taken from the usage estimate.
`getRegionToVNETZone` is a package function not under `src/`, so it is
passed as an explicit parameter. -/
def VirtualNetworkGateway.virtualNetworkGatewayDataTransfersComponent
    (inst : VirtualNetworkGateway) (getRegionToVNETZone : String → String)
    (key location : String) : QueryComponent :=
  { name := "VPN gateway data tranfer"
    monthlyQuantity := inst.monthlyDataTransferGB
    usage := true
    productFilter := some
      { provider := some key
        service := some "VPN Gateway"
        family := some "Networking"
        location := some (getRegionToVNETZone location)
        attributeFilters :=
          [⟨"product_name", some "VPN Gateway Bandwidth"⟩,
           ⟨"meter_name",
            some "Standard Inter-Virtual Network Data Transfer Out"⟩] }
    priceFilter := some
      { unit := some "1 GB"
        attributeFilters := [⟨"type", some "Consumption"⟩] } }

/-- `VirtualNetworkGateway.Components` (virtual_network_gateway.go:78-86). -/
def VirtualNetworkGateway.Components (inst : VirtualNetworkGateway)
    (getRegionToVNETZone : String → String) : List QueryComponent :=
  [inst.virtualNetworkGatewayComponent inst.provider.key inst.location
     inst.sku inst.meterName,
   inst.virtualNetworkGatewayP2SComponent inst.provider.key inst.location
     inst.sku,
   inst.virtualNetworkGatewayDataTransfersComponent getRegionToVNETZone
     inst.provider.key inst.location]

/-- The update a single query component performs on a components map. -/
def compStep (b : Backend) (m : List (String × Component))
    (comp : QueryComponent) : List (String × Component) :=
  mapSet m comp.name (processComponent b comp)

/-- A backend whose every lookup fails with `context.Canceled`. -/
def canceledBackend : Backend :=
  ⟨fun _ => .error .canceled, fun _ _ => .error .canceled⟩

/-- A backend whose every lookup succeeds with an empty result list. -/
def emptyBackend : Backend :=
  ⟨fun _ => .ok [], fun _ _ => .ok []⟩

/-- A backend with one product (id 7) and one price (0.10) for any filter. -/
def tenCentBackend : Backend :=
  ⟨fun _ => .ok [{ id := 7 }], fun _ _ => .ok [{ value := 1/10 }]⟩

/-- A component that recorded a backend error. -/
def errComponent : Component := { error := some (GoErr.backendErr "boom") }

/-- A prior state with one resource whose single component errored. -/
def errPriorState : State := ⟨[("r", ⟨some [("c1", errComponent)], false⟩)]⟩

/-- A plan pairing `errPriorState` with an empty planned state. -/
def errPlan : Plan := ⟨errPriorState, ⟨[]⟩⟩

/-- The resource difference `errPlan` yields for address `"r"`. -/
def errDiff : ResourceDiff := ⟨"r", [("c1", errComponent)], []⟩

section MapLemmas

theorem mapLookup_mapSet_self {α : Type} (m : List (String × α)) (k : String)
    (v : α) : mapLookup (mapSet m k v) k = some v := by
  induction m with
  | nil => simp [mapSet, mapLookup]
  | cons kv rest ih =>
      obtain ⟨k1, v1⟩ := kv
      by_cases h : k1 = k
      · subst h
        simp [mapSet, mapLookup]
      · simp [mapSet, mapLookup, h, ih]

theorem mapLookup_mapSet_ne {α : Type} (m : List (String × α))
    (k k' : String) (v : α) (h : k' ≠ k) :
    mapLookup (mapSet m k v) k' = mapLookup m k' := by
  have h' : ¬ (k = k') := fun hh => h (Eq.symm hh)
  induction m with
  | nil => simp [mapSet, mapLookup, h']
  | cons kv rest ih =>
      obtain ⟨k1, v1⟩ := kv
      by_cases hk : k1 = k
      · subst hk
        simp [mapSet, mapLookup, h']
      · simp [mapSet, mapLookup, hk, ih]

theorem mapSet_lookup_self {α : Type} :
    ∀ (m : List (String × α)) (k : String) (v : α),
      mapLookup m k = some v → mapSet m k v = m := by
  intro m k v
  induction m with
  | nil => intro h; simp [mapLookup] at h
  | cons kv rest ih =>
      obtain ⟨k1, v1⟩ := kv
      intro h
      by_cases hk : k1 = k
      · subst hk
        simp only [mapLookup, if_true, eq_self_iff_true, Option.some.injEq] at h
        subst h
        simp [mapSet]
      · simp only [mapLookup, if_neg hk] at h
        simp [mapSet, hk, ih h]

theorem mapSet_mapSet {α : Type} (m : List (String × α)) (k : String)
    (v w : α) : mapSet (mapSet m k v) k w = mapSet m k w := by
  induction m with
  | nil => simp [mapSet]
  | cons kv rest ih =>
      obtain ⟨k1, v1⟩ := kv
      by_cases hk : k1 = k
      · subst hk
        simp [mapSet]
      · simp [mapSet, hk, ih]

end MapLemmas

section AddComponentLemmas

theorem addComponent_absent (s : State) (a l : String) (c : Component)
    (h : mapLookup s.resources a = none) :
    s.addComponent a l c =
      some ⟨mapSet s.resources a ⟨some (mapSet [] l c), false⟩⟩ := by
  simp [State.addComponent, h]

theorem addComponent_init (s : State) (a l : String) (c : Component)
    (m : List (String × Component)) (sk : Bool)
    (h : mapLookup s.resources a = some ⟨some m, sk⟩) :
    s.addComponent a l c =
      some ⟨mapSet s.resources a ⟨some (mapSet m l c), sk⟩⟩ := by
  simp [State.addComponent, h]

theorem addComponent_nilmap (s : State) (a l : String) (c : Component)
    (sk : Bool) (h : mapLookup s.resources a = some ⟨none, sk⟩) :
    s.addComponent a l c = none := by
  simp [State.addComponent, h]

theorem addComponent_lookup_ne (s s' : State) (a l : String) (c : Component)
    (a' : String) (ha : a' ≠ a) (h : s.addComponent a l c = some s') :
    mapLookup s'.resources a' = mapLookup s.resources a' := by
  cases hl : mapLookup s.resources a with
  | none =>
      rw [addComponent_absent s a l c hl, Option.some.injEq] at h
      subst h
      exact mapLookup_mapSet_ne _ _ _ _ ha
  | some r =>
      obtain ⟨rc, rsk⟩ := r
      cases rc with
      | none =>
          rw [addComponent_nilmap s a l c rsk hl] at h
          cases h
      | some m =>
          rw [addComponent_init s a l c m rsk hl, Option.some.injEq] at h
          subst h
          exact mapLookup_mapSet_ne _ _ _ _ ha

end AddComponentLemmas

section StepLemmas

theorem processComponents_nil (backend : Option Backend) (a : String)
    (st : State) : processComponents backend a [] st = .ok st := rfl

theorem processComponents_cons_none (a : String) (comp : QueryComponent)
    (rest : List QueryComponent) (st : State) :
    processComponents none a (comp :: rest) st =
      .error "invalid memory address or nil pointer dereference" := rfl

theorem processComponents_cons_some (b : Backend) (a : String)
    (comp : QueryComponent) (rest : List QueryComponent) (st : State) :
    processComponents (some b) a (comp :: rest) st =
      match st.addComponent a comp.name (processComponent b comp) with
      | none => .error "assignment to entry in nil map"
      | some s => processComponents (some b) a rest s := rfl

theorem processResources_nil (backend : Option Backend) (st : State) :
    processResources backend st [] = .ok st := rfl

theorem processResources_cons_empty (backend : Option Backend) (st : State)
    (a : String) (rest : List QueryResource) :
    processResources backend st (⟨a, []⟩ :: rest) =
      processResources backend ⟨mapSet st.resources a ⟨none, true⟩⟩ rest := rfl

theorem processResources_cons_comps (backend : Option Backend) (st : State)
    (a : String) (comp : QueryComponent) (comps : List QueryComponent)
    (rest : List QueryResource) :
    processResources backend st (⟨a, comp :: comps⟩ :: rest) =
      match processComponents backend a (comp :: comps) st with
      | .error e => .error e
      | .ok s => processResources backend s rest := rfl

end StepLemmas

section ProcessComponentsLemmas

theorem processComponents_init (b : Backend) (a : String) :
    ∀ (comps : List QueryComponent) (st : State)
      (m : List (String × Component)) (sk : Bool),
      mapLookup st.resources a = some ⟨some m, sk⟩ →
      processComponents (some b) a comps st =
        .ok ⟨mapSet st.resources a ⟨some (comps.foldl (compStep b) m), sk⟩⟩ := by
  intro comps
  induction comps with
  | nil =>
      intro st m sk h
      rw [processComponents_nil, List.foldl_nil, mapSet_lookup_self _ _ _ h]
  | cons comp rest ih =>
      intro st m sk h
      have hadd := addComponent_init st a comp.name (processComponent b comp) m sk h
      have hlook : mapLookup
          (mapSet st.resources a
            ⟨some (mapSet m comp.name (processComponent b comp)), sk⟩) a =
          some ⟨some (mapSet m comp.name (processComponent b comp)), sk⟩ :=
        mapLookup_mapSet_self _ _ _
      have hrest := ih ⟨mapSet st.resources a
          ⟨some (mapSet m comp.name (processComponent b comp)), sk⟩⟩
        (mapSet m comp.name (processComponent b comp)) sk hlook
      rw [processComponents_cons_some]
      simp only [hadd, hrest]
      simp only [mapSet_mapSet, List.foldl_cons, compStep]

theorem processComponents_fresh (b : Backend) (a : String)
    (comps : List QueryComponent) (st : State)
    (h : mapLookup st.resources a = none) (hne : comps ≠ []) :
    processComponents (some b) a comps st =
      .ok ⟨mapSet st.resources a
        ⟨some (comps.foldl (compStep b) []), false⟩⟩ := by
  cases comps with
  | nil => exact absurd rfl hne
  | cons comp rest =>
      have hadd := addComponent_absent st a comp.name (processComponent b comp) h
      have hlook : mapLookup
          (mapSet st.resources a
            ⟨some (mapSet [] comp.name (processComponent b comp)), false⟩) a =
          some ⟨some (mapSet [] comp.name (processComponent b comp)), false⟩ :=
        mapLookup_mapSet_self _ _ _
      have hrest := processComponents_init b a rest
        ⟨mapSet st.resources a
          ⟨some (mapSet [] comp.name (processComponent b comp)), false⟩⟩
        (mapSet [] comp.name (processComponent b comp)) false hlook
      rw [processComponents_cons_some]
      simp only [hadd, hrest]
      simp only [mapSet_mapSet, List.foldl_cons, compStep]

theorem processComponents_lookup_ne (backend : Option Backend) (a : String) :
    ∀ (comps : List QueryComponent) (st st' : State),
      processComponents backend a comps st = .ok st' →
      ∀ a', a' ≠ a → mapLookup st'.resources a' = mapLookup st.resources a' := by
  intro comps
  induction comps with
  | nil =>
      intro st st' h a' _
      rw [processComponents_nil, Except.ok.injEq] at h
      rw [h]
  | cons comp rest ih =>
      intro st st' h a' ha
      cases backend with
      | none => rw [processComponents_cons_none] at h; cases h
      | some b =>
          rw [processComponents_cons_some] at h
          cases hadd : st.addComponent a comp.name (processComponent b comp) with
          | none => rw [hadd] at h; cases h
          | some s1 =>
              rw [hadd] at h
              rw [ih s1 st' h a' ha,
                addComponent_lookup_ne st s1 a comp.name _ a' ha hadd]

theorem processComponents_total (b : Backend) (a : String)
    (comps : List QueryComponent) (st : State)
    (h : mapLookup st.resources a = none ∨
      ∃ m sk, mapLookup st.resources a = some ⟨some m, sk⟩) :
    ∃ st', processComponents (some b) a comps st = .ok st' := by
  cases comps with
  | nil => exact ⟨st, rfl⟩
  | cons comp rest =>
      rcases h with h | ⟨m, sk, h⟩
      · exact ⟨_, processComponents_fresh b a _ st h (by simp)⟩
      · exact ⟨_, processComponents_init b a _ st m sk h⟩

end ProcessComponentsLemmas

section ProcessResourcesLemmas

theorem processResources_skipped_stable (backend : Option Backend)
    (a : String) :
    ∀ (queries : List QueryResource) (st s' : State),
      processResources backend st queries = .ok s' →
      mapLookup st.resources a = some ⟨none, true⟩ →
      mapLookup s'.resources a = some ⟨none, true⟩ := by
  intro queries
  induction queries with
  | nil =>
      intro st s' h hl
      rw [processResources_nil, Except.ok.injEq] at h
      rw [← h]
      exact hl
  | cons res rest ih =>
      obtain ⟨addr, comps⟩ := res
      intro st s' h hl
      cases comps with
      | nil =>
          rw [processResources_cons_empty] at h
          refine ih _ s' h ?_
          by_cases ha : addr = a
          · subst ha
            exact mapLookup_mapSet_self st.resources addr _
          · rw [mapLookup_mapSet_ne st.resources addr a _
              (fun hh => ha (Eq.symm hh))]
            exact hl
      | cons comp crest =>
          rw [processResources_cons_comps] at h
          cases hpc : processComponents backend addr (comp :: crest) st with
          | error e => rw [hpc] at h; cases h
          | ok s1 =>
              rw [hpc] at h
              by_cases ha : addr = a
              · subst ha
                cases backend with
                | none => rw [processComponents_cons_none] at hpc; cases hpc
                | some b =>
                    rw [processComponents_cons_some,
                      addComponent_nilmap st addr comp.name
                        (processComponent b comp) true hl] at hpc
                    cases hpc
              · refine ih s1 s' h ?_
                rw [processComponents_lookup_ne backend addr _ st s1 hpc a
                  (fun hh => ha (Eq.symm hh))]
                exact hl

theorem processResources_skipped (backend : Option Backend) :
    ∀ (queries : List QueryResource) (st s' : State),
      processResources backend st queries = .ok s' →
      ∀ res ∈ queries, res.components = [] →
      mapLookup s'.resources res.address = some ⟨none, true⟩ := by
  intro queries
  induction queries with
  | nil => intro st s' _ res hres; cases hres
  | cons q rest ih =>
      obtain ⟨addr, comps⟩ := q
      intro st s' h res hres hc
      rcases List.mem_cons.mp hres with rfl | hmem
      · have hc' : comps = [] := hc
        subst hc'
        rw [processResources_cons_empty] at h
        exact processResources_skipped_stable backend addr rest _ s' h
          (mapLookup_mapSet_self st.resources addr _)
      · cases comps with
        | nil =>
            rw [processResources_cons_empty] at h
            exact ih _ s' h res hmem hc
        | cons comp crest =>
            rw [processResources_cons_comps] at h
            cases hpc : processComponents backend addr (comp :: crest) st with
            | error e => rw [hpc] at h; cases h
            | ok s1 =>
                rw [hpc] at h
                exact ih s1 s' h res hmem hc

theorem processResources_total (b : Backend) :
    ∀ (queries : List QueryResource) (st : State),
      (queries.map (fun r => r.address)).Nodup →
      (∀ r ∈ queries, mapLookup st.resources r.address = none) →
      ∃ s, processResources (some b) st queries = .ok s := by
  intro queries
  induction queries with
  | nil => intro st _ _; exact ⟨st, rfl⟩
  | cons res rest ih =>
      obtain ⟨addr, comps⟩ := res
      intro st hnodup hnone
      have hhead : mapLookup st.resources addr = none :=
        hnone ⟨addr, comps⟩ (List.mem_cons_self _ _)
      have hnotin : addr ∉ rest.map (fun r => r.address) :=
        (List.nodup_cons.mp hnodup).1
      have htail : (rest.map (fun r => r.address)).Nodup :=
        (List.nodup_cons.mp hnodup).2
      cases comps with
      | nil =>
          have hrest : ∀ r ∈ rest,
              mapLookup (mapSet st.resources addr (⟨none, true⟩ : Resource))
                r.address = none := by
            intro r hr
            rw [mapLookup_mapSet_ne st.resources addr r.address _
              (fun hh => hnotin (hh ▸ List.mem_map_of_mem _ hr))]
            exact hnone r (List.mem_cons_of_mem _ hr)
          obtain ⟨s, hs⟩ := ih ⟨mapSet st.resources addr ⟨none, true⟩⟩
            htail hrest
          exact ⟨s, by rw [processResources_cons_empty]; exact hs⟩
      | cons comp crest =>
          have hfresh := processComponents_fresh b addr (comp :: crest)
            st hhead (by simp)
          have hrest : ∀ r ∈ rest,
              mapLookup (mapSet st.resources addr
                (⟨some ((comp :: crest).foldl (compStep b) []), false⟩ : Resource))
                r.address = none := by
            intro r hr
            rw [mapLookup_mapSet_ne st.resources addr r.address _
              (fun hh => hnotin (hh ▸ List.mem_map_of_mem _ hr))]
            exact hnone r (List.mem_cons_of_mem _ hr)
          obtain ⟨s, hs⟩ := ih ⟨mapSet st.resources addr
            ⟨some ((comp :: crest).foldl (compStep b) []), false⟩⟩ htail hrest
          refine ⟨s, ?_⟩
          rw [processResources_cons_comps]
          simp only [hfresh]
          exact hs

theorem processResources_nil_backend :
    ∀ (queries : List QueryResource) (st : State),
      (∃ r ∈ queries, r.components ≠ []) →
      processResources none st queries =
        .error "invalid memory address or nil pointer dereference" := by
  intro queries
  induction queries with
  | nil => intro st h; simp at h
  | cons q rest ih =>
      obtain ⟨addr, comps⟩ := q
      intro st h
      cases comps with
      | nil =>
          have hr : ∃ r ∈ rest, r.components ≠ [] := by
            rcases h with ⟨r, hr, hrc⟩
            rcases List.mem_cons.mp hr with hr | hr
            · subst hr; exact absurd rfl hrc
            · exact ⟨r, hr, hrc⟩
          rw [processResources_cons_empty]
          exact ih _ hr
      | cons comp crest =>
          rw [processResources_cons_comps, processComponents_cons_none]

end ProcessResourcesLemmas

section NewStateLemmas

theorem NewState_ok (backend : Option Backend) (queries : List QueryResource)
    (s : State) (h : processResources backend ⟨[]⟩ queries = .ok s) :
    NewState backend queries = .ok (s, none) := by
  unfold NewState
  rw [h]

theorem NewState_error (backend : Option Backend)
    (queries : List QueryResource) (e : String)
    (h : processResources backend ⟨[]⟩ queries = .error e) :
    NewState backend queries = .error e := by
  unfold NewState
  rw [h]

theorem NewState_ok_inv (backend : Option Backend)
    (queries : List QueryResource) (s : State) (e : Option GoErr)
    (h : NewState backend queries = .ok (s, e)) :
    processResources backend ⟨[]⟩ queries = .ok s ∧ e = none := by
  unfold NewState at h
  cases hp : processResources backend ⟨[]⟩ queries with
  | error e' => rw [hp] at h; cases h
  | ok s' =>
      rw [hp] at h
      rw [Except.ok.injEq, Prod.mk.injEq] at h
      exact ⟨by rw [h.1], h.2.symm⟩

end NewStateLemmas

section FoldlLookupLemmas

theorem foldl_compStep_lookup_notmem (b : Backend) :
    ∀ (comps : List QueryComponent) (m : List (String × Component))
      (l : String), l ∉ comps.map (fun c => c.name) →
      mapLookup (comps.foldl (compStep b) m) l = mapLookup m l := by
  intro comps
  induction comps with
  | nil => intro m l _; rfl
  | cons c rest ih =>
      intro m l hl
      simp only [List.map_cons, List.mem_cons] at hl
      push_neg at hl
      rw [List.foldl_cons, ih _ _ hl.2]
      exact mapLookup_mapSet_ne m c.name l _ hl.1

theorem foldl_compStep_lookup_mem (b : Backend) :
    ∀ (comps : List QueryComponent) (m : List (String × Component)),
      (comps.map (fun c => c.name)).Nodup →
      ∀ comp ∈ comps,
        mapLookup (comps.foldl (compStep b) m) comp.name =
          some (processComponent b comp) := by
  intro comps
  induction comps with
  | nil => intro m _ comp hc; cases hc
  | cons c rest ih =>
      intro m hnodup comp hc
      simp only [List.map_cons, List.nodup_cons] at hnodup
      rcases List.mem_cons.mp hc with rfl | hmem
      · rw [List.foldl_cons, foldl_compStep_lookup_notmem b rest _ _ hnodup.1]
        exact mapLookup_mapSet_self m comp.name _
      · rw [List.foldl_cons]
        exact ih _ hnodup.2 comp hmem

end FoldlLookupLemmas

section CostLemmas

theorem cost_foldl (l : List (String × Resource)) (acc : Dec) :
    l.foldl (fun total kv => total + kv.2.Cost) acc =
      acc + (l.map (fun kv => kv.2.Cost)).sum := by
  induction l generalizing acc with
  | nil => simp
  | cons kv rest ih => simp [List.foldl_cons, ih, add_assoc]

theorem state_cost_eq (s : State) :
    s.Cost = (s.resources.map (fun kv => kv.2.Cost)).sum := by
  unfold State.Cost
  rw [cost_foldl, zero_add]

theorem components_cost_filter (l : List (String × Component)) :
    (l.map (fun kv => kv.2.Cost)).sum =
      ((l.filter (fun kv => kv.2.error.isNone)).map
        (fun kv => kv.2.quantity * kv.2.rate)).sum := by
  induction l with
  | nil => rfl
  | cons kv rest ih =>
      cases he : kv.2.error with
      | none =>
          rw [List.map_cons, List.sum_cons, ih, List.filter_cons]
          simp [Component.Cost, he]
      | some e =>
          rw [List.map_cons, List.sum_cons, ih, List.filter_cons]
          simp [Component.Cost, he]

theorem skipped_resource_cost : Resource.Cost ⟨none, true⟩ = 0 := rfl

end CostLemmas

section ComponentsCostLemmas

theorem componentsCost_error_of_mem :
    ∀ (comps : List (String × Component)) (l : String) (c : Component)
      (e : GoErr), (l, c) ∈ comps → c.error = some e →
      ∃ e', componentsCost comps = .error e' ∧
        ∃ l' c', (l', c') ∈ comps ∧ c'.error = some e' := by
  intro comps
  induction comps with
  | nil => intro l c e h _; cases h
  | cons kv rest ih =>
      intro l c e hmem he
      obtain ⟨k0, c0⟩ := kv
      cases he0 : c0.error with
      | some e0 =>
          refine ⟨e0, ?_, ⟨k0, c0, List.mem_cons_self _ _, he0⟩⟩
          simp [componentsCost, he0]
      | none =>
          have hmem' : (l, c) ∈ rest := by
            rcases List.mem_cons.mp hmem with heq | h
            · exfalso
              cases heq
              rw [he] at he0
              cases he0
            · exact h
          obtain ⟨e', hc, l', c', hm', he'⟩ := ih l c e hmem' he
          refine ⟨e', ?_, ⟨l', c', List.mem_cons_of_mem _ hm', he'⟩⟩
          simp [componentsCost, he0, hc]

end ComponentsCostLemmas

theorem estimateDisplay_mem (p : Plan) (d : ResourceDiff)
    (hd : d ∈ p.ResourceDifferences) : displayLine d ∈ estimateDisplay p :=
  List.mem_map_of_mem displayLine hd

/-- C1: for every query component that resolves to at least one product and
at least one price, the recorded Component has quantity `monthlyQuantity`
and rate `price.value` unmodified when `monthlyQuantity ≠ 0`, and quantity
`hourlyQuantity` with rate `price.value × 730` otherwise; the first product
and first price returned are the ones used, and `NewState` records exactly
this component. -/
theorem newState_normalization (b : Backend) (comp : QueryComponent)
    (prod0 : Product) (prods : List Product) (price0 : Price)
    (prices : List Price)
    (hp : b.productFilter comp.productFilter = .ok (prod0 :: prods))
    (hpr : b.priceFilter prod0.id comp.priceFilter = .ok (price0 :: prices)) :
    processComponent b comp =
      (if comp.monthlyQuantity ≠ 0 then
        { quantity := comp.monthlyQuantity, unit := comp.unit,
          rate := price0.value, details := comp.details }
      else
        { quantity := comp.hourlyQuantity, unit := comp.unit,
          rate := price0.value * HoursPerMonth, details := comp.details }) ∧
    ∀ addr, NewState (some b) [⟨addr, [comp]⟩] =
      .ok (⟨[(addr, ⟨some [(comp.name, processComponent b comp)], false⟩)]⟩,
        none) := by
  constructor
  · unfold processComponent
    simp only [hp]
    simp only [hpr]
    by_cases h0 : comp.monthlyQuantity = 0
    · simp [h0]
    · simp [h0]
  · intro addr
    apply NewState_ok
    rw [processResources_cons_comps]
    have hfresh := processComponents_fresh b addr [comp] ⟨[]⟩ rfl (by simp)
    simp only [hfresh]
    rw [processResources_nil]
    rfl

/-- C1 witness: scenario A of §8 — one component, hourly quantity 1, price
0.10; `NewState` records it under its resource address and name. -/
theorem newState_normalization_witness :
    NewState (some tenCentBackend)
        [⟨"compute-1", [{ name := "cpu", hourlyQuantity := 1 }]⟩] =
      .ok (⟨[("compute-1",
        ⟨some [("cpu",
          processComponent tenCentBackend { name := "cpu", hourlyQuantity := 1 })],
          false⟩)]⟩, none) :=
  (newState_normalization tenCentBackend { name := "cpu", hourlyQuantity := 1 }
    { id := 7 } [] { value := 1/10 } [] rfl rfl).2 "compute-1"

/-- C2: `State.Cost` equals the sum over all resources of the sum of
quantity × rate over that resource's non-error components; components
carrying an error contribute zero. -/
theorem state_cost_sum (s : State) :
    s.Cost = (s.resources.map (fun kv =>
      (((kv.2.components.getD []).filter (fun lc => lc.2.error.isNone)).map
        (fun lc => lc.2.quantity * lc.2.rate)).sum)).sum := by
  have hres : (fun kv : String × Resource => kv.2.Cost) =
      (fun kv : String × Resource =>
        (((kv.2.components.getD []).filter (fun lc => lc.2.error.isNone)).map
          (fun lc => lc.2.quantity * lc.2.rate)).sum) := by
    funext kv
    unfold Resource.Cost
    rw [components_cost_filter]
  rw [state_cost_eq, hres]

/-- C3: an empty product list yields a recorded `ProductNotFound` component
with zero quantity and rate; an empty price list on the first product
yields `PriceNotFound` likewise; and all sibling components of the resource
are still processed and recorded (the build succeeds). -/
theorem newState_not_found (b : Backend) (addr : String)
    (comps : List QueryComponent)
    (hnodup : (comps.map (fun c => c.name)).Nodup) :
    (∀ comp, b.productFilter comp.productFilter = .ok [] →
      processComponent b comp = { error := some ErrProductNotFound } ∧
      (processComponent b comp).quantity = 0 ∧
      (processComponent b comp).rate = 0) ∧
    (∀ comp prod0 prods,
      b.productFilter comp.productFilter = .ok (prod0 :: prods) →
      b.priceFilter prod0.id comp.priceFilter = .ok [] →
      processComponent b comp = { error := some ErrPriceNotFound } ∧
      (processComponent b comp).quantity = 0 ∧
      (processComponent b comp).rate = 0) ∧
    ∃ s, NewState (some b) [⟨addr, comps⟩] = .ok (s, none) ∧
      ∀ comp ∈ comps, ∃ r c, mapLookup s.resources addr = some r ∧
        mapLookup (r.components.getD []) comp.name = some c ∧
        c = processComponent b comp := by
  refine ⟨?_, ?_, ?_⟩
  · intro comp hp
    have hc : processComponent b comp = { error := some ErrProductNotFound } := by
      unfold processComponent
      simp only [hp]
    exact ⟨hc, by rw [hc], by rw [hc]⟩
  · intro comp prod0 prods hp hpr
    have hc : processComponent b comp = { error := some ErrPriceNotFound } := by
      unfold processComponent
      simp only [hp]
      simp only [hpr]
    exact ⟨hc, by rw [hc], by rw [hc]⟩
  · cases comps with
    | nil =>
        refine ⟨⟨[(addr, ⟨none, true⟩)]⟩, ?_, ?_⟩
        · apply NewState_ok
          rw [processResources_cons_empty]
          rfl
        · intro comp hc
          exact absurd hc (List.not_mem_nil comp)
    | cons c crest =>
        have hfresh := processComponents_fresh b addr (c :: crest) ⟨[]⟩ rfl
          (by simp)
        refine ⟨⟨mapSet [] addr
          ⟨some ((c :: crest).foldl (compStep b) []), false⟩⟩, ?_, ?_⟩
        · apply NewState_ok
          rw [processResources_cons_comps]
          simp only [hfresh]
          rfl
        · intro comp hcm
          refine ⟨⟨some ((c :: crest).foldl (compStep b) []), false⟩,
            processComponent b comp, ?_, ?_, rfl⟩
          · exact mapLookup_mapSet_self [] addr _
          · exact foldl_compStep_lookup_mem b (c :: crest) [] hnodup comp hcm

/-- C3 witness: a backend returning no products yields the
`ProductNotFound` component with zero quantity and rate. -/
theorem newState_not_found_witness :
    processComponent emptyBackend { name := "a" } =
      { error := some ErrProductNotFound } ∧
    (processComponent emptyBackend { name := "a" }).quantity = 0 ∧
    (processComponent emptyBackend { name := "a" }).rate = 0 :=
  (newState_not_found emptyBackend "r" [{ name := "a" }] (by simp)).1
    { name := "a" } rfl

/-- C4: a query resource with zero components yields a Resource with
`skipped = true` (and a nil components map) at its address in the built
State, that Resource costs 0, and the component loop does nothing for it. -/
theorem newState_skipped_resource (backend : Option Backend)
    (queries : List QueryResource) (s : State) (e : Option GoErr)
    (h : NewState backend queries = .ok (s, e))
    (res : QueryResource) (hres : res ∈ queries)
    (hc : res.components = []) :
    mapLookup s.resources res.address = some ⟨none, true⟩ ∧
    Resource.Cost ⟨none, true⟩ = 0 ∧
    ∀ st, processComponents backend res.address res.components st = .ok st := by
  obtain ⟨hp, -⟩ := NewState_ok_inv backend queries s e h
  refine ⟨processResources_skipped backend queries _ s hp res hres hc, rfl, ?_⟩
  intro st
  rw [hc]
  rfl

/-- C4 witness: scenario B of §8 — a resource with no components is
recorded as skipped and costs 0. -/
theorem newState_skipped_resource_witness :
    mapLookup (State.mk [("gateway-1", ⟨none, true⟩)]).resources
      "gateway-1" = some ⟨none, true⟩ ∧
    Resource.Cost ⟨none, true⟩ = 0 ∧
    ∀ st, processComponents none "gateway-1" [] st = .ok st :=
  newState_skipped_resource none [⟨"gateway-1", []⟩]
    ⟨[("gateway-1", ⟨none, true⟩)]⟩ none rfl ⟨"gateway-1", []⟩
    (List.mem_singleton.mpr rfl) rfl

/-- C5 counterexample: with a nil backend and an empty query list,
`NewState` does not fail — it returns a State together with a nil error. -/
theorem newState_nil_backend_no_failure :
    NewState none [] = .ok (⟨[]⟩, none) := rfl

/-- C5 (amended): `NewState` never returns a non-nil Go error; a nil
backend makes the build fail (panic) whenever at least one component is
processed; a non-nil backend with pairwise-distinct resource addresses
always yields a State regardless of per-component lookup outcomes. -/
theorem newState_failure_modes :
    (∀ queries : List QueryResource, (∃ r ∈ queries, r.components ≠ []) →
      NewState none queries =
        .error "invalid memory address or nil pointer dereference") ∧
    (∀ (b : Backend) (queries : List QueryResource),
      (queries.map (fun r => r.address)).Nodup →
      ∃ s, NewState (some b) queries = .ok (s, none)) ∧
    (∀ (backend : Option Backend) (queries : List QueryResource)
      (s : State) (e : Option GoErr),
      NewState backend queries = .ok (s, e) → e = none) := by
  refine ⟨?_, ?_, ?_⟩
  · intro queries hq
    exact NewState_error _ _ _ (processResources_nil_backend queries ⟨[]⟩ hq)
  · intro b queries hnodup
    obtain ⟨s, hs⟩ := processResources_total b queries ⟨[]⟩ hnodup
      (fun r _ => rfl)
    exact ⟨s, NewState_ok _ _ _ hs⟩
  · intro backend queries s e h
    exact (NewState_ok_inv backend queries s e h).2

/-- C5 witness: a nil backend fails once a component is processed, and a
non-nil backend returns a State. -/
theorem newState_failure_modes_witness :
    NewState none [⟨"r", [{}]⟩] =
      .error "invalid memory address or nil pointer dereference" ∧
    ∃ s, NewState (some emptyBackend) [⟨"r", []⟩] = .ok (s, none) :=
  ⟨newState_failure_modes.1 [⟨"r", [{}]⟩]
      ⟨⟨"r", [{}]⟩, List.mem_singleton.mpr rfl, by simp⟩,
    newState_failure_modes.2.1 emptyBackend [⟨"r", []⟩] (by simp)⟩

/-- C6 counterexample: a run in which the catalog lookup fails with the
cancellation error, yet `NewState` returns a State together with a nil
error (the claim says it must not). -/
theorem newState_cancellation_counterexample :
    canceledBackend.productFilter ({} : QueryComponent).productFilter =
      .error GoErr.canceled ∧
    NewState (some canceledBackend) [⟨"vpn", [{}]⟩] =
      .ok (⟨[("vpn", ⟨some [("", { error := some GoErr.canceled })],
        false⟩)]⟩, none) :=
  ⟨rfl, rfl⟩

/-- C6 (amended): when a catalog lookup fails with the cancellation error,
the error is recorded on the affected component and the build still
completes, returning a State with a nil build-level error. -/
theorem newState_cancellation_recorded (b : Backend) (addr : String)
    (comp : QueryComponent)
    (h : b.productFilter comp.productFilter = .error GoErr.canceled) :
    NewState (some b) [⟨addr, [comp]⟩] =
      .ok (⟨[(addr, ⟨some [(comp.name, { error := some GoErr.canceled })],
        false⟩)]⟩, none) := by
  have hpc : processComponent b comp = { error := some GoErr.canceled } := by
    unfold processComponent
    simp only [h]
  apply NewState_ok
  rw [processResources_cons_comps]
  have hfresh := processComponents_fresh b addr [comp] ⟨[]⟩ rfl (by simp)
  simp only [hfresh]
  rw [processResources_nil]
  simp [mapSet, compStep, hpc]

/-- C6 witness: the amended behavior at a concrete canceled backend. -/
theorem newState_cancellation_recorded_witness :
    NewState (some canceledBackend) [⟨"wit", [{}]⟩] =
      .ok (⟨[("wit", ⟨some [("", { error := some GoErr.canceled })],
        false⟩)]⟩, none) :=
  newState_cancellation_recorded canceledBackend "wit" {} rfl

/-- C7: if any component of a resource difference's side carries an error,
that side's cost computation fails with a recorded error of that side, the
display line for the resource is the error line against its address (never
a computed cost figure), and that line appears in the report. -/
theorem diff_error_surfaced (p : Plan) (d : ResourceDiff)
    (hd : d ∈ p.ResourceDifferences) :
    (∀ l c e, (l, c) ∈ d.priorComponents → c.error = some e →
      ∃ e', d.PriorCost = .error e' ∧
        (∃ l' c', (l', c') ∈ d.priorComponents ∧ c'.error = some e') ∧
        displayLine d = .priorCostErr d.address e' ∧
        ReportLine.priorCostErr d.address e' ∈ estimateDisplay p) ∧
    (∀ l c e, (l, c) ∈ d.plannedComponents → c.error = some e →
      ∃ e', d.PlannedCost = .error e' ∧
        (∃ l' c', (l', c') ∈ d.plannedComponents ∧ c'.error = some e') ∧
        ∀ q, d.PriorCost = .ok q →
          displayLine d = .plannedCostErr d.address e' ∧
          ReportLine.plannedCostErr d.address e' ∈ estimateDisplay p) ∧
    (∀ l c e, ((l, c) ∈ d.priorComponents ∨ (l, c) ∈ d.plannedComponents) →
      c.error = some e → ∀ a q1 q2, displayLine d ≠ .costs a q1 q2) := by
  refine ⟨?_, ?_, ?_⟩
  · intro l c e hm he
    obtain ⟨e', hcost, hw⟩ :=
      componentsCost_error_of_mem d.priorComponents l c e hm he
    have hprior : d.PriorCost = .error e' := hcost
    have hline : displayLine d = .priorCostErr d.address e' := by
      simp only [displayLine, hprior]
    refine ⟨e', hprior, hw, hline, ?_⟩
    rw [← hline]
    exact estimateDisplay_mem p d hd
  · intro l c e hm he
    obtain ⟨e', hcost, hw⟩ :=
      componentsCost_error_of_mem d.plannedComponents l c e hm he
    have hplanned : d.PlannedCost = .error e' := hcost
    refine ⟨e', hplanned, hw, ?_⟩
    intro q hq
    have hline : displayLine d = .plannedCostErr d.address e' := by
      simp only [displayLine, hq, hplanned]
    refine ⟨hline, ?_⟩
    rw [← hline]
    exact estimateDisplay_mem p d hd
  · intro l c e hm he a q1 q2
    rcases hm with hm | hm
    · obtain ⟨e', hcost, -⟩ :=
        componentsCost_error_of_mem d.priorComponents l c e hm he
      have hprior : d.PriorCost = .error e' := hcost
      have hline : displayLine d = .priorCostErr d.address e' := by
        simp only [displayLine, hprior]
      rw [hline]
      intro hcon
      cases hcon
    · obtain ⟨e', hcost, -⟩ :=
        componentsCost_error_of_mem d.plannedComponents l c e hm he
      have hplanned : d.PlannedCost = .error e' := hcost
      cases hpc : d.PriorCost with
      | error e2 =>
          have hline : displayLine d = .priorCostErr d.address e2 := by
            simp only [displayLine, hpc]
          rw [hline]
          intro hcon
          cases hcon
      | ok q =>
          have hline : displayLine d = .plannedCostErr d.address e' := by
            simp only [displayLine, hpc, hplanned]
          rw [hline]
          intro hcon
          cases hcon

/-- C7 witness: a plan whose prior side has a resource with one erroring
component; its cost fails and the report shows the error line. -/
theorem diff_error_surfaced_witness :
    ∃ e', errDiff.PriorCost = .error e' ∧
      (∃ l' c', (l', c') ∈ errDiff.priorComponents ∧ c'.error = some e') ∧
      displayLine errDiff = .priorCostErr errDiff.address e' ∧
      ReportLine.priorCostErr errDiff.address e' ∈ estimateDisplay errPlan :=
  (diff_error_surfaced errPlan errDiff (by decide)).1 "c1" errComponent
    (GoErr.backendErr "boom") (by decide) rfl

/-- C8: building twice against backends with identical (stable) responses
yields identical results: the very same `State.Cost` and the very same
per-resource, per-component State. -/
theorem newState_deterministic (b1 b2 : Backend)
    (hp : ∀ f, b1.productFilter f = b2.productFilter f)
    (hpr : ∀ i f, b1.priceFilter i f = b2.priceFilter i f)
    (queries : List QueryResource) :
    NewState (some b1) queries = NewState (some b2) queries ∧
    ∀ s1 e1 s2 e2, NewState (some b1) queries = .ok (s1, e1) →
      NewState (some b2) queries = .ok (s2, e2) →
      s1.Cost = s2.Cost ∧ s1 = s2 := by
  have hb : b1 = b2 := by
    cases b1
    cases b2
    congr 1
    · funext f
      exact hp f
    · funext i f
      exact hpr i f
  subst hb
  refine ⟨rfl, ?_⟩
  intro s1 e1 s2 e2 h1 h2
  rw [h1, Except.ok.injEq, Prod.mk.injEq] at h2
  exact ⟨by rw [h2.1], h2.1⟩

/-- C8 witness: two runs with the same backend agree. -/
theorem newState_deterministic_witness :
    NewState (some emptyBackend) [] = NewState (some emptyBackend) [] :=
  (newState_deterministic emptyBackend emptyBackend (fun _ => rfl)
    (fun _ _ => rfl) []).1

/-- C9: in the virtual network gateway generator, the data-transfer
component is `usage:true` and takes its monthly quantity from the
caller-supplied usage estimate (for every configuration), while the two
non-usage components bill hourly with fixed quantity 1, independent of the
usage estimate. -/
theorem gateway_usage_components
    (getLocationName getRegionToVNETZone : String → String) (p : Provider)
    (vals : VirtualNetworkGatewayValues) :
    ∃ c1 c2 c3,
      (newVirtualNetworkGateway getLocationName p vals).Components
        getRegionToVNETZone = [c1, c2, c3] ∧
      c3.usage = true ∧
      c3.monthlyQuantity = vals.monthlyDataTransferGB ∧
      c3.hourlyQuantity = 0 ∧
      c1.usage = false ∧ c1.hourlyQuantity = 1 ∧ c1.monthlyQuantity = 0 ∧
      c2.usage = false ∧ c2.hourlyQuantity = 1 ∧ c2.monthlyQuantity = 0 :=
  ⟨_, _, _, rfl, rfl, rfl, rfl, rfl, rfl, rfl, rfl, rfl, rfl⟩

/-- C10: `addComponent` creates the Resource with a fresh, initialized
components map on the first insertion at an address; under pairwise
distinct addresses `NewState` never hits an uninitialized map and is total;
whereas a zero-component resource followed by a resource at the same
address with a component panics on the nil map. -/
theorem newState_total_unique_addresses (b : Backend)
    (queries : List QueryResource)
    (hnodup : (queries.map (fun r => r.address)).Nodup) :
    (∀ (st : State) (a l : String) (c : Component),
      mapLookup st.resources a = none →
      ∃ st', st.addComponent a l c = some st' ∧
        mapLookup st'.resources a = some ⟨some [(l, c)], false⟩) ∧
    (∃ s, NewState (some b) queries = .ok (s, none)) ∧
    NewState (some emptyBackend) [⟨"a", []⟩, ⟨"a", [{ name := "x" }]⟩] =
      .error "assignment to entry in nil map" := by
  refine ⟨?_, ?_, ?_⟩
  · intro st a l c h
    exact ⟨_, addComponent_absent st a l c h,
      mapLookup_mapSet_self st.resources a _⟩
  · obtain ⟨s, hs⟩ := processResources_total b queries ⟨[]⟩ hnodup
      (fun r _ => rfl)
    exact ⟨s, NewState_ok _ _ _ hs⟩
  · rfl

/-- C10 witness: with distinct addresses the build is total. -/
theorem newState_total_unique_addresses_witness :
    ∃ s, NewState (some emptyBackend)
      [⟨"a", []⟩, ⟨"b", [{ name := "x" }]⟩] = .ok (s, none) :=
  (newState_total_unique_addresses emptyBackend
    [⟨"a", []⟩, ⟨"b", [{ name := "x" }]⟩] (by decide)).2.1

end Terracost
